import Mathlib

/-!
Shallow embedding of `src/main.go` (a batch pipeline resolving, for each
domain in a list, the BGP prefixes announced by the AS hosting it), and
proofs of the frozen claims about it.

External effects (running `dig`/`whois`, the HTTP GET, reading and writing
files) are modelled by an explicit environment `Env` / `Setup` supplying the
outcome of each external call; everything the Go code computes from those
outcomes is translated function by function.
-/

namespace AdressToIpStend

/-! ### Go string primitives used by the source

`strings.TrimSpace` trims the characters for which `unicode.IsSpace` holds;
`strings.Split(s, "\n")` splits on every newline and yields `[""]` on the
empty string. Both are re-implemented here over `List Char`.
-/

/-- The characters Go's `unicode.IsSpace` accepts (the White_Space property):
the ASCII spaces, NEL, NBSP, and the Unicode space separators. -/
def isGoSpace (c : Char) : Bool :=
  c == ' ' || c == '\t' || c == '\n' || c == '\u000B' || c == '\u000C' ||
  c == '\r' || c == '\u0085' || c == '\u00A0' || c == '\u1680' ||
  ('\u2000' ≤ c && c ≤ '\u200A') || c == '\u2028' || c == '\u2029' ||
  c == '\u202F' || c == '\u205F' || c == '\u3000'

/-- Trim `isGoSpace` characters from both ends, as `strings.TrimSpace` does. -/
def trimSpaceList (cs : List Char) : List Char :=
  ((cs.dropWhile isGoSpace).reverse.dropWhile isGoSpace).reverse

/-- Embedding of `strings.TrimSpace`. -/
def goTrimSpace (s : String) : String :=
  String.mk (trimSpaceList s.data)

/-- Embedding of `strings.Split(s, "\n")` over the character list: the
sections between newlines. On `[]` it yields `[[]]`, exactly as Go's
`strings.Split("", "\n")` yields `[""]`. -/
def splitNewlineList : List Char → List (List Char)
  | [] => [[]]
  | c :: cs =>
    if c == '\n' then [] :: splitNewlineList cs
    else
      match splitNewlineList cs with
      | [] => [[c]]
      | g :: gs => (c :: g) :: gs

/-- Embedding of `strings.Split(s, "\n")`. -/
def goSplitLines (s : String) : List String :=
  (splitNewlineList s.data).map String.mk

/-- Numeric value of a digit list, most significant digit first. -/
def digitsVal (ds : List Char) : Nat :=
  ds.foldl (fun a c => a * 10 + (c.toNat - 48)) 0

/-- Embedding of `strconv.Atoi` (= `strconv.ParseInt(s, 10, 0)` on a 64-bit
platform) over the character list: optional sign, at least one digit, no
other characters, and the value must fit in a signed 64-bit integer
(otherwise Go returns `ErrRange`, a non-nil error to the caller). -/
def atoiList : List Char → Except String Int
  | [] => Except.error "invalid syntax"
  | c :: t =>
    let ds : List Char := if c == '-' || c == '+' then t else c :: t
    if ds.isEmpty then Except.error "invalid syntax"
    else if ds.all Char.isDigit then
      let v : Int := if c == '-' then -(digitsVal ds : Int) else (digitsVal ds : Int)
      if v < -(2 ^ 63) ∨ (2 ^ 63 - 1 : Int) < v then Except.error "value out of range"
      else Except.ok v
    else Except.error "invalid syntax"

/-- Embedding of `strconv.Atoi`. -/
def goAtoi (s : String) : Except String Int :=
  atoiList s.data

/-! ### The regular expression `OriginAS:\s+AS(\d+)`

`regexp.FindStringSubmatch` returns the leftmost match; the quantifiers are
greedy, and since the character after the `\s+` run must be the non-space
`A` and nothing follows the `\d+` group, the greedy scan below is the only
possible match at a position.
-/

/-- The Perl class `\s` as Go's `regexp` implements it: tab, newline, form
feed, carriage return and space. -/
def isRegexSpace (c : Char) : Bool :=
  c == '\t' || c == '\n' || c == '\u000C' || c == '\r' || c == ' '

/-- Drop a literal character sequence from the front; `none` when it is not
there. -/
def dropLit : List Char → List Char → Option (List Char)
  | [], cs => some cs
  | _ :: _, [] => none
  | l :: ls, c :: cs => if c == l then dropLit ls cs else none

/-- Match `OriginAS:\s+AS(\d+)` anchored at the head of the list, returning
the captured digit group. -/
def matchOriginAt (cs : List Char) : Option (List Char) :=
  match dropLit "OriginAS:".data cs with
  | none => none
  | some r1 =>
    if (r1.takeWhile isRegexSpace).isEmpty then none
    else
      match dropLit "AS".data (r1.dropWhile isRegexSpace) with
      | none => none
      | some r2 =>
        if (r2.takeWhile Char.isDigit).isEmpty then none
        else some (r2.takeWhile Char.isDigit)

/-- Leftmost match of `OriginAS:\s+AS(\d+)`: the digit group of the first
position where the pattern matches, as `FindStringSubmatch` returns it. -/
def findOriginList : List Char → Option (List Char)
  | [] => none
  | c :: cs =>
    match matchOriginAt (c :: cs) with
    | some ds => some ds
    | none => findOriginList cs

/-- The captured digits of the first occurrence of `OriginAS:\s+AS(\d+)` in
the whois response text. -/
def findOriginAS (s : String) : Option (List Char) :=
  findOriginList s.data

/-! ### Data model (the structs of `main.go`) -/

/-- One prefix entry of the API response (struct `Prefix`). -/
structure Prefix where
  Prefix : String
  Count : Int
  Total : Int

/-- The API response shape (struct `ApiResponse`). -/
structure ApiResponse where
  Prefixes : List Prefix

/-- One output record (struct `PrefixForFile`). -/
structure PrefixForFile where
  Hostname : String
  IP : String

/-- JSON documents, for stating what `json.MarshalIndent` produces. -/
inductive Json where
  | null
  | str (s : String)
  | arr (elems : List Json)
  | obj (fields : List (String × Json))

/-! ### The external world -/

/-- Outcome of the HTTP GET of `getIPPrefixes`: a transport failure, or a
response with a status code and (when the status is read) the result of
reading and unmarshalling the body into `ApiResponse`. -/
inductive HttpOutcome where
  | transportError (msg : String)
  | response (status : Nat) (bodyParse : Except String ApiResponse)

/-- The per-domain external calls: `cmd.Run` of `dig +short <domain>`
(stdout on success), `cmd.Run` of `whois <ip>` (stdout on success), and the
HTTP GET for an AS number. -/
structure Env where
  digRun : String → Except String String
  whoisRun : String → Except String String
  httpGet : Int → HttpOutcome

/-- The setup-phase externals of `main`: `os.Executable`, the read of
`domains.txt`, and whether `ioutil.WriteFile` succeeds. -/
structure Setup where
  exePath : Except String String
  domainsData : Except String String
  writeOk : Bool

/-! ### The functions of `main.go` -/

/-- Embedding of `getIPsByDig`: on `cmd.Run` failure an error; otherwise the
stdout, trimmed and split on newlines. -/
def getIPsByDig (env : Env) (domain : String) : Except String (List String) :=
  match env.digRun domain with
  | Except.error e => Except.error ("failed to run dig command: " ++ e)
  | Except.ok out => Except.ok (goSplitLines (goTrimSpace out))

/-- Embedding of `getASNumberByWhois`: on `cmd.Run` failure an error;
otherwise the first `OriginAS:\s+AS(\d+)` capture fed to `strconv.Atoi`,
or the not-found error when the pattern is absent. -/
def getASNumberByWhois (env : Env) (ip : String) : Except String Int :=
  match env.whoisRun ip with
  | Except.error e => Except.error ("failed to run whois command: " ++ e)
  | Except.ok out =>
    match findOriginAS out with
    | none => Except.error "AS number not found in whois response"
    | some ds => goAtoi (String.mk ds)

/-- Embedding of `getIPPrefixes`: transport failure, then the status check
(only 200 passes), then body read/unmarshal; on success the `Prefixes`
field exactly as the API provided it. -/
def getIPPrefixes (env : Env) (asNumber : Int) : Except String (List Prefix) :=
  match env.httpGet asNumber with
  | HttpOutcome.transportError e => Except.error ("failed to GET: " ++ e)
  | HttpOutcome.response status bodyParse =>
    if status == 200 then
      match bodyParse with
      | Except.error e => Except.error ("failed to parse JSON: " ++ e)
      | Except.ok r => Except.ok r.Prefixes
    else Except.error "received non-200 response"

/-- Embedding of one output record as `json.MarshalIndent` renders it: an
object with the tagged keys "hostname" and "ip". -/
def recordToJson (r : PrefixForFile) : Json :=
  Json.obj [("hostname", Json.str r.Hostname), ("ip", Json.str r.IP)]

/-- Embedding of `json.MarshalIndent` on the accumulator slice. The slice is
`Option (List PrefixForFile)` because Go distinguishes the nil slice (the
accumulator's state while no record has been appended) from a non-nil one:
`encoding/json` marshals a nil slice as `null`, a non-nil one as an array
of its elements in order. -/
def marshalIndent : Option (List PrefixForFile) → Json
  | none => Json.null
  | some rs => Json.arr (rs.map recordToJson)

/-- Embedding of `savePrefixesToFile`: marshal (which cannot fail for this
type), then write, whose success the setup decides. -/
def savePrefixesToFile (data : Option (List PrefixForFile)) (writeOk : Bool) :
    Except String Json :=
  let jsonData := marshalIndent data
  if writeOk then Except.ok jsonData
  else Except.error "failed to write JSON to file"

/-- Embedding of `readDomainsFromFile`: on read failure an error; otherwise
the file contents trimmed and split on newlines. -/
def readDomainsFromFile (data : Except String String) : Except String (List String) :=
  match data with
  | Except.error e => Except.error ("failed to read file: " ++ e)
  | Except.ok contents => Except.ok (goSplitLines (goTrimSpace contents))

/-- Embedding of Go's `append(acc, x)` on the accumulator slice: the result
is always non-nil. -/
def goAppend (acc : Option (List PrefixForFile)) (x : PrefixForFile) :
    Option (List PrefixForFile) :=
  some (acc.getD [] ++ [x])

/-- The inner `for _, prefix := range prefixes` loop of `main`: append each
record in order. -/
def goAppendList (acc : Option (List PrefixForFile)) :
    List PrefixForFile → Option (List PrefixForFile)
  | [] => acc
  | x :: xs => goAppendList (goAppend acc x) xs

/-! ### The per-domain pipeline of `main` -/

/-- What one iteration of the domain loop did: which whois calls and HTTP
calls it made, and which records it appended. -/
structure DomainTrace where
  whoisCalls : List String
  httpCalls : List Int
  newRecords : List PrefixForFile

/-- The part of a loop iteration from the whois lookup of `ips[0]` on: every
`continue` branch of `main` becomes an empty `newRecords`. -/
def processIP (env : Env) (ip : String) : DomainTrace :=
  match getASNumberByWhois env ip with
  | Except.error _ => ⟨[ip], [], []⟩
  | Except.ok asNumber =>
    match getIPPrefixes env asNumber with
    | Except.error _ => ⟨[ip], [asNumber], []⟩
    | Except.ok ps =>
      ⟨[ip], [asNumber], ps.map (fun p => PrefixForFile.mk p.Prefix "")⟩

/-- One full iteration of the domain loop of `main`: dig, the `len(ips)==0`
guard, then `processIP` on `ips[0]`. -/
def processDomain (env : Env) (domain : String) : DomainTrace :=
  match getIPsByDig env domain with
  | Except.error _ => ⟨[], [], []⟩
  | Except.ok ips =>
    match ips with
    | [] => ⟨[], [], []⟩
    | ip :: _ => processIP env ip

/-- The whole domain loop of `main`, threading the accumulator. -/
def mainLoop (env : Env) : Option (List PrefixForFile) → List String →
    Option (List PrefixForFile)
  | acc, [] => acc
  | acc, d :: ds => mainLoop env (goAppendList acc (processDomain env d).newRecords) ds

/-- The loop paired with what each iteration did, for stating that every
domain of the list is processed. -/
def pipelineTrace (env : Env) : List String → List (String × DomainTrace)
  | [] => []
  | d :: ds => (d, processDomain env d) :: pipelineTrace env ds

/-- How a run of `main` ends. -/
inductive RunOutcome where
  | abortedExePath (msg : String)
  | abortedReadDomains (msg : String)
  | abortedSave (msg : String)
  | saved (doc : Json)

/-- Embedding of `main`: resolve the executable path, read the domain list,
run the loop with a nil accumulator, save. Each early `return` of `main`
is an aborted outcome. -/
def mainRun (setup : Setup) (env : Env) : RunOutcome :=
  match setup.exePath with
  | Except.error e => RunOutcome.abortedExePath e
  | Except.ok _ =>
    match readDomainsFromFile setup.domainsData with
    | Except.error e => RunOutcome.abortedReadDomains e
    | Except.ok domains =>
      let results := mainLoop env none domains
      match savePrefixesToFile results setup.writeOk with
      | Except.error e => RunOutcome.abortedSave e
      | Except.ok doc => RunOutcome.saved doc

/-! ### Concrete environments for witnesses and counterexamples -/

/-- Environment where `dig` succeeds printing nothing and `whois` fails. -/
def envNoWhois : Env :=
  ⟨fun _ => Except.ok "", fun _ => Except.error "exit status 1",
   fun _ => HttpOutcome.transportError "no network"⟩

/-- Environment whose whois response carries a 20-digit AS number. -/
def envOverflowAS : Env :=
  ⟨fun _ => Except.error "exit status 1",
   fun _ => Except.ok "OriginAS: AS99999999999999999999",
   fun _ => HttpOutcome.transportError "no network"⟩

/-- Environment whose whois response reports `OriginAS: AS0`. -/
def envWhoisAS0 : Env :=
  ⟨fun _ => Except.error "exit status 1", fun _ => Except.ok "OriginAS: AS0",
   fun _ => HttpOutcome.transportError "no network"⟩

/-- Environment whose whois response reports `OriginAS: AS15133`. -/
def envWhois15133 : Env :=
  ⟨fun _ => Except.error "exit status 1", fun _ => Except.ok "OriginAS: AS15133",
   fun _ => HttpOutcome.transportError "no network"⟩

/-- Environment where DNS and whois succeed but the HTTP API returns 404. -/
def envHttp404 : Env :=
  ⟨fun _ => Except.ok "93.184.216.34", fun _ => Except.ok "OriginAS: AS15133",
   fun _ => HttpOutcome.response 404 (Except.error "unread")⟩

/-- Environment where every stage succeeds: two resolved IPs, AS 15133, and
one originated prefix. -/
def envFull : Env :=
  ⟨fun _ => Except.ok "93.184.216.34\n93.184.216.35",
   fun _ => Except.ok "OriginAS: AS15133",
   fun _ => HttpOutcome.response 200 (Except.ok ⟨[⟨"93.184.216.0/24", 1, 1⟩]⟩)⟩

/-- A setup whose executable path and input file are available, with the
input file holding one domain, and a writable output file. -/
def setupOk : Setup := ⟨Except.ok "/opt/stend", Except.ok "example.com", true⟩

/-- All three stages of a domain's pipeline pass succeeded: `dig` returned at
least one address, the whois lookup of the first address yielded an AS
number, and the prefix fetch for that AS number succeeded. -/
def domainCompleted (env : Env) (d : String) : Prop :=
  ∃ ip rest asn ps, getIPsByDig env d = Except.ok (ip :: rest) ∧
    getASNumberByWhois env ip = Except.ok asn ∧
    getIPPrefixes env asn = Except.ok ps

/-! ### Helper lemmas -/

theorem splitNewlineList_ne_nil (cs : List Char) : splitNewlineList cs ≠ [] := by
  induction cs with
  | nil => simp [splitNewlineList]
  | cons c cs ih =>
    cases h : c == '\n' with
    | true => simp [splitNewlineList, h]
    | false =>
      simp only [splitNewlineList, h, Bool.false_eq_true, if_false]
      cases hs : splitNewlineList cs <;> simp

theorem goSplitLines_length_pos (s : String) : 1 ≤ (goSplitLines s).length := by
  unfold goSplitLines
  rw [List.length_map]
  exact List.length_pos.mpr (splitNewlineList_ne_nil s.data)

theorem matchOriginAt_digits {cs ds : List Char} (h : matchOriginAt cs = some ds) :
    ds ≠ [] ∧ ds.all Char.isDigit = true := by
  unfold matchOriginAt at h
  split at h
  · exact absurd h (by simp)
  · split at h
    · exact absurd h (by simp)
    · split at h
      · exact absurd h (by simp)
      · split at h
        · exact absurd h (by simp)
        · next hne =>
          injection h with h'
          subst h'
          refine ⟨?_, List.all_takeWhile⟩
          intro hnil
          rw [hnil] at hne
          exact hne rfl

theorem findOriginList_digits : ∀ (cs ds : List Char), findOriginList cs = some ds →
    ds ≠ [] ∧ ds.all Char.isDigit = true := by
  intro cs
  induction cs with
  | nil => intro ds h; exact absurd h (by simp [findOriginList])
  | cons c cs ih =>
    intro ds h
    unfold findOriginList at h
    split at h
    · next hm =>
      injection h with h'
      subst h'
      exact matchOriginAt_digits hm
    · exact ih ds h

theorem atoiList_digits (c : Char) (t : List Char)
    (hdig : (c :: t).all Char.isDigit = true) :
    atoiList (c :: t) =
      if digitsVal (c :: t) ≤ 2 ^ 63 - 1 then Except.ok ((digitsVal (c :: t) : Nat) : Int)
      else Except.error "value out of range" := by
  have hc : Char.isDigit c = true := by
    simp only [List.all_cons, Bool.and_eq_true] at hdig
    exact hdig.1
  have hcm : (c == '-') = false :=
    beq_false_of_ne (by rintro rfl; exact absurd hc (by decide))
  have hcp : (c == '+') = false :=
    beq_false_of_ne (by rintro rfl; exact absurd hc (by decide))
  have h63n : (2 : Nat) ^ 63 = 9223372036854775808 := by norm_num
  have h63i : (2 : Int) ^ 63 = 9223372036854775808 := by norm_num
  simp only [atoiList, hcm, hcp, Bool.or_self, List.isEmpty_cons, Bool.false_eq_true,
    if_false, hdig, if_true, h63i, h63n]
  have h0 : (0 : Int) ≤ (digitsVal (c :: t) : Int) := Int.natCast_nonneg _
  split_ifs with h1 h2 h2 <;> first | rfl | (exfalso; omega)

theorem processIP_whoisCalls (env : Env) (ip : String) :
    (processIP env ip).whoisCalls = [ip] := by
  unfold processIP
  split
  · rfl
  · split <;> rfl

theorem getIPs_eq (env : Env) (d out : String) (h : env.digRun d = Except.ok out) :
    getIPsByDig env d = Except.ok (goSplitLines (goTrimSpace out)) := by
  unfold getIPsByDig
  rw [h]

theorem getAS_eq (env : Env) (ip out : String) (h : env.whoisRun ip = Except.ok out) :
    getASNumberByWhois env ip =
      match findOriginAS out with
      | none => Except.error "AS number not found in whois response"
      | some ds => goAtoi (String.mk ds) := by
  unfold getASNumberByWhois
  rw [h]

theorem getIPPrefixes_non200 (env : Env) (asn : Int) (status : Nat)
    (body : Except String ApiResponse)
    (h : env.httpGet asn = HttpOutcome.response status body) (hst : status ≠ 200) :
    getIPPrefixes env asn = Except.error "received non-200 response" := by
  unfold getIPPrefixes
  rw [h]
  simp [beq_false_of_ne hst]

theorem processDomain_cons (env : Env) (d ip : String) (rest : List String)
    (h : getIPsByDig env d = Except.ok (ip :: rest)) :
    processDomain env d = processIP env ip := by
  unfold processDomain
  rw [h]

theorem processIP_ok (env : Env) (ip : String) (asn : Int) (ps : List Prefix)
    (h1 : getASNumberByWhois env ip = Except.ok asn)
    (h2 : getIPPrefixes env asn = Except.ok ps) :
    processIP env ip = ⟨[ip], [asn], ps.map (fun p => PrefixForFile.mk p.Prefix "")⟩ := by
  simp only [processIP, h1, h2]

theorem processIP_http_err (env : Env) (ip : String) (asn : Int) (e : String)
    (h1 : getASNumberByWhois env ip = Except.ok asn)
    (h2 : getIPPrefixes env asn = Except.error e) :
    processIP env ip = ⟨[ip], [asn], []⟩ := by
  simp only [processIP, h1, h2]

theorem pipelineTrace_fst (env : Env) : ∀ ds : List String,
    (pipelineTrace env ds).map Prod.fst = ds := by
  intro ds
  induction ds with
  | nil => rfl
  | cons d ds ih => simp [pipelineTrace, ih]

/-! ### The claims -/

/-- Claim C1, code-bug evidence: when `dig` succeeds printing nothing — the
DNS stage resolved zero addresses — the pipeline still performs a whois
(OriginLookup) call, with the empty string as the IP. The split of the
trimmed output turns the empty stdout into `[""]`, so the `len(ips) == 0`
guard of `main` never fires and the skip the claim (and the guard itself)
describes does not happen. -/
theorem claim1_zero_ip_still_calls_whois :
    envNoWhois.digRun "example.com" = Except.ok "" ∧
    getIPsByDig envNoWhois "example.com" = Except.ok [""] ∧
    (processDomain envNoWhois "example.com").whoisCalls = [""] :=
  ⟨rfl, rfl, rfl⟩

/-- Claim C2, counterexample: serializing the empty accumulator (the nil
slice `main` starts with and still holds when zero records were appended)
yields the JSON document `null`, not `[]`. -/
theorem claim2_empty_marshals_to_null :
    marshalIndent none = Json.null ∧ marshalIndent none ≠ Json.arr [] :=
  ⟨rfl, fun h => Json.noConfusion h⟩

/-- Claim C2, amended: serializing the empty accumulator yields `null`
(Go marshals a nil slice as JSON null); serializing a non-nil accumulator of
N records yields a JSON array of length N whose elements appear in
accumulation order. -/
theorem claim2_marshal_shape :
    marshalIndent none = Json.null ∧
    ∀ rs : List PrefixForFile,
      marshalIndent (some rs) = Json.arr (rs.map recordToJson) ∧
      (rs.map recordToJson).length = rs.length :=
  ⟨rfl, fun rs => ⟨rfl, by simp⟩⟩

/-- Claim C3, counterexample: a response in which the pattern
`OriginAS: AS<digits>` is present, yet the lookup returns an error rather
than the AS number of the first occurrence: the captured digits overflow
`strconv.Atoi`'s signed 64-bit range, so an error occurs although the
pattern is not absent. -/
theorem claim3_overflow_errors_despite_match :
    findOriginAS "OriginAS: AS99999999999999999999"
      = some "99999999999999999999".data ∧
    getASNumberByWhois envOverflowAS "93.184.216.34"
      = Except.error "value out of range" :=
  ⟨rfl, rfl⟩

/-- Claim C3, amended: for every registry response text, the lookup returns
the AS number taken from the first occurrence of `OriginAS: AS<digits>`
provided the captured digits fit in a signed 64-bit integer; it errors when
the pattern is absent, and also errors (with a range error) when the digits
of the first occurrence exceed that range. -/
theorem claim3_first_match_atoi (env : Env) (ip out : String)
    (h : env.whoisRun ip = Except.ok out) :
    (findOriginAS out = none →
      getASNumberByWhois env ip
        = Except.error "AS number not found in whois response") ∧
    (∀ ds, findOriginAS out = some ds →
      (digitsVal ds ≤ 2 ^ 63 - 1 →
        getASNumberByWhois env ip = Except.ok (digitsVal ds : Int)) ∧
      (2 ^ 63 - 1 < digitsVal ds →
        getASNumberByWhois env ip = Except.error "value out of range")) := by
  have heq := getAS_eq env ip out h
  constructor
  · intro hnone
    rw [heq, hnone]
  · intro ds hsome
    obtain ⟨hne, hdig⟩ := findOriginList_digits out.data ds hsome
    obtain ⟨c, t, rfl⟩ : ∃ c t, ds = c :: t := by
      cases ds with
      | nil => exact absurd rfl hne
      | cons c t => exact ⟨c, t, rfl⟩
    have hatoi : goAtoi (String.mk (c :: t)) = atoiList (c :: t) := rfl
    constructor
    · intro hle
      simp only [heq, hsome]
      rw [hatoi, atoiList_digits c t hdig, if_pos hle]
    · intro hgt
      simp only [heq, hsome]
      rw [hatoi, atoiList_digits c t hdig, if_neg (by omega)]

/-- Claim C3 witness: in the environment whose whois response is
`OriginAS: AS15133`, the lookup returns 15133. -/
theorem claim3_witness :
    getASNumberByWhois envWhois15133 "93.184.216.34" = Except.ok 15133 := by
  have h := claim3_first_match_atoi envWhois15133 "93.184.216.34"
    "OriginAS: AS15133" rfl
  exact (h.2 "15133".data rfl).1 (by decide)

/-- Claim C4: a non-200 HTTP status makes `getIPPrefixes` return an error,
and for any domain whose first IP resolved to that AS number, no record is
appended and the accumulator is exactly what it was before the domain. -/
theorem claim4_non200_skips (env : Env) (asn : Int) (status : Nat)
    (body : Except String ApiResponse)
    (hresp : env.httpGet asn = HttpOutcome.response status body)
    (hst : status ≠ 200) :
    getIPPrefixes env asn = Except.error "received non-200 response" ∧
    ∀ d ip rest, getIPsByDig env d = Except.ok (ip :: rest) →
      getASNumberByWhois env ip = Except.ok asn →
      (processDomain env d).newRecords = [] ∧ ∀ acc, mainLoop env acc [d] = acc := by
  have herr := getIPPrefixes_non200 env asn status body hresp hst
  refine ⟨herr, ?_⟩
  intro d ip rest hdig hwhois
  have hpd : processDomain env d = ⟨[ip], [asn], []⟩ := by
    rw [processDomain_cons env d ip rest hdig,
      processIP_http_err env ip asn _ hwhois herr]
  refine ⟨by rw [hpd], ?_⟩
  intro acc
  show mainLoop env (goAppendList acc (processDomain env d).newRecords) [] = acc
  rw [hpd]
  rfl

/-- Claim C4 witness: with a 404 response for AS 15133, the fetch errors and
the domain leaves a sample accumulator untouched. -/
theorem claim4_witness :
    getIPPrefixes envHttp404 15133 = Except.error "received non-200 response" ∧
    (processDomain envHttp404 "example.com").newRecords = [] ∧
    mainLoop envHttp404 (some [PrefixForFile.mk "10.0.0.0/8" ""]) ["example.com"]
      = some [PrefixForFile.mk "10.0.0.0/8" ""] := by
  have h := claim4_non200_skips envHttp404 15133 404 (Except.error "unread")
    rfl (by decide)
  have h2 := h.2 "example.com" "93.184.216.34" [] rfl rfl
  exact ⟨h.1, h2.1, h2.2 _⟩

/-- Claim C5: when all three stages of a domain succeed, the records
appended for it are exactly one per returned prefix, in order, with the
hostname field the returned prefix string verbatim and the ip field the
empty string. -/
theorem claim5_success_records (env : Env) (d ip : String) (rest : List String)
    (asn : Int) (ps : List Prefix)
    (hdig : getIPsByDig env d = Except.ok (ip :: rest))
    (hwhois : getASNumberByWhois env ip = Except.ok asn)
    (hfetch : getIPPrefixes env asn = Except.ok ps) :
    (processDomain env d).newRecords.length = ps.length ∧
    (processDomain env d).newRecords.map PrefixForFile.Hostname
      = ps.map Prefix.Prefix ∧
    ∀ r ∈ (processDomain env d).newRecords, PrefixForFile.IP r = "" := by
  have hpd : processDomain env d
      = ⟨[ip], [asn], ps.map (fun p => PrefixForFile.mk p.Prefix "")⟩ := by
    rw [processDomain_cons env d ip rest hdig,
      processIP_ok env ip asn ps hwhois hfetch]
  rw [hpd]
  refine ⟨by simp, ?_, ?_⟩
  · rw [List.map_map]
    rfl
  · intro r hr
    simp only [List.mem_map] at hr
    obtain ⟨p, _, rfl⟩ := hr
    rfl

/-- Claim C5 witness: in the fully successful environment, one record is
produced, with hostname `93.184.216.0/24` and empty ip. -/
theorem claim5_witness :
    (processDomain envFull "example.com").newRecords.length = 1 ∧
    (processDomain envFull "example.com").newRecords.map PrefixForFile.Hostname
      = ["93.184.216.0/24"] ∧
    ∀ r ∈ (processDomain envFull "example.com").newRecords,
      PrefixForFile.IP r = "" := by
  have h := claim5_success_records envFull "example.com" "93.184.216.34"
    ["93.184.216.35"] 15133 [⟨"93.184.216.0/24", 1, 1⟩] rfl rfl rfl
  exact ⟨h.1, h.2.1.trans rfl, h.2.2⟩

/-- Claim C6: once the executable path and the domain list are obtained, the
run never aborts on a per-domain failure: every domain of the list is
processed, in order, whatever each stage's outcome, and the run proceeds to
the save step; an abort before the batch happens only when the executable
path or the input file read failed. -/
theorem claim6_batch_never_aborts (setup : Setup) (env : Env) (exeDir data : String)
    (hexe : setup.exePath = Except.ok exeDir)
    (hread : setup.domainsData = Except.ok data) :
    (pipelineTrace env (goSplitLines (goTrimSpace data))).map Prod.fst
      = goSplitLines (goTrimSpace data) ∧
    (setup.writeOk = true →
      mainRun setup env
        = RunOutcome.saved
            (marshalIndent (mainLoop env none (goSplitLines (goTrimSpace data))))) ∧
    (setup.writeOk = false →
      mainRun setup env = RunOutcome.abortedSave "failed to write JSON to file") ∧
    (∀ (s : Setup) (e : Env) (msg : String),
      mainRun s e = RunOutcome.abortedExePath msg → ∃ m, s.exePath = Except.error m) ∧
    (∀ (s : Setup) (e : Env) (msg : String),
      mainRun s e = RunOutcome.abortedReadDomains msg →
        ∃ m, s.domainsData = Except.error m) := by
  have hdom : readDomainsFromFile setup.domainsData
      = Except.ok (goSplitLines (goTrimSpace data)) := by
    unfold readDomainsFromFile
    rw [hread]
  refine ⟨pipelineTrace_fst env _, ?_, ?_, ?_, ?_⟩
  · intro hw
    simp only [mainRun, hexe, hdom, savePrefixesToFile, hw, if_true]
  · intro hw
    simp only [mainRun, hexe, hdom, savePrefixesToFile, hw, Bool.false_eq_true, if_false]
  · intro s e msg h
    cases hs : s.exePath with
    | error m => exact ⟨m, rfl⟩
    | ok p =>
      exfalso
      simp only [mainRun, hs] at h
      cases hr : readDomainsFromFile s.domainsData with
      | error m => simp [hr] at h
      | ok doms =>
        simp only [hr, savePrefixesToFile] at h
        cases hw : s.writeOk <;> simp [hw] at h
  · intro s e msg h
    cases hr : s.domainsData with
    | error m => exact ⟨m, rfl⟩
    | ok contents =>
      exfalso
      have hr2 : readDomainsFromFile s.domainsData
          = Except.ok (goSplitLines (goTrimSpace contents)) := by
        unfold readDomainsFromFile
        rw [hr]
      cases hs : s.exePath with
      | error m => simp [mainRun, hs] at h
      | ok p =>
        simp only [mainRun, hs, hr2, savePrefixesToFile] at h
        cases hw : s.writeOk <;> simp [hw] at h

/-- Claim C6 witness: with the input obtained and a whois that always fails,
the run still reaches the save step and writes the marshalled (empty, hence
null) result. -/
theorem claim6_witness :
    (pipelineTrace envNoWhois (goSplitLines (goTrimSpace "example.com"))).map Prod.fst
      = goSplitLines (goTrimSpace "example.com") ∧
    mainRun setupOk envNoWhois = RunOutcome.saved Json.null := by
  have h := claim6_batch_never_aborts setupOk envNoWhois "/opt/stend"
    "example.com" rfl rfl
  exact ⟨h.1, (h.2.1 rfl).trans rfl⟩

/-- Claim C7: for a domain whose dig output splits into one or more IPs, the
whois lookup is invoked exactly once, with the first IP of the returned
sequence, and the whole iteration is a function of that first IP alone (the
remaining IPs are unused downstream). -/
theorem claim7_first_ip_only (env : Env) (d ip : String) (rest : List String)
    (hdig : getIPsByDig env d = Except.ok (ip :: rest)) :
    (processDomain env d).whoisCalls = [ip] ∧
    processDomain env d = processIP env ip := by
  have hpd := processDomain_cons env d ip rest hdig
  refine ⟨?_, hpd⟩
  rw [hpd]
  exact processIP_whoisCalls env ip

/-- Claim C7 witness: with two resolved IPs, whois is called once, on the
first. -/
theorem claim7_witness :
    (processDomain envFull "example.com").whoisCalls = ["93.184.216.34"] ∧
    processDomain envFull "example.com" = processIP envFull "93.184.216.34" :=
  claim7_first_ip_only envFull "example.com" "93.184.216.34" ["93.184.216.35"] rfl

/-- Claim C8, counterexample: the response `OriginAS: AS0` makes the lookup
succeed with AS number 0, which is not strictly positive. -/
theorem claim8_as_zero :
    getASNumberByWhois envWhoisAS0 "93.184.216.34" = Except.ok 0 ∧
    ¬ ((0 : Int) > 0) :=
  ⟨rfl, by decide⟩

/-- Claim C8, amended: every AS number returned by a successful whois lookup
is a nonnegative integer (the captured group is all digits, so no sign is
possible; zero itself can be returned). -/
theorem claim8_nonneg (env : Env) (ip : String) (n : Int)
    (h : getASNumberByWhois env ip = Except.ok n) : 0 ≤ n := by
  unfold getASNumberByWhois at h
  cases hw : env.whoisRun ip with
  | error e => simp [hw] at h
  | ok out =>
    simp only [hw] at h
    cases hf : findOriginAS out with
    | none => simp [hf] at h
    | some ds =>
      simp only [hf] at h
      obtain ⟨hne, hdig⟩ := findOriginList_digits out.data ds hf
      obtain ⟨c, t, rfl⟩ : ∃ c t, ds = c :: t := by
        cases ds with
        | nil => exact absurd rfl hne
        | cons c t => exact ⟨c, t, rfl⟩
      rw [show goAtoi (String.mk (c :: t)) = atoiList (c :: t) from rfl,
        atoiList_digits c t hdig] at h
      split at h
      · injection h with h'
        rw [← h']
        exact Int.natCast_nonneg _
      · exact absurd h (by simp)

/-- Claim C8 witness: the lookup of the AS15133 response returns 15133,
which is nonnegative. -/
theorem claim8_witness :
    getASNumberByWhois envWhois15133 "93.184.216.34" = Except.ok 15133 ∧
    (0 : Int) ≤ 15133 :=
  ⟨rfl, claim8_nonneg envWhois15133 "93.184.216.34" 15133 rfl⟩

/-- Claim C9: whenever `dig` itself succeeds, `getIPsByDig` returns the
split of the trimmed output, which always has at least one element; in
particular when `dig` prints nothing the result is `[""]`, so the zero-IP
branch of `main` is unreachable and the empty string is passed to the whois
lookup. -/
theorem claim9_dig_never_empty (env : Env) (d out : String)
    (h : env.digRun d = Except.ok out) :
    getIPsByDig env d = Except.ok (goSplitLines (goTrimSpace out)) ∧
    1 ≤ (goSplitLines (goTrimSpace out)).length ∧
    (out = "" →
      getIPsByDig env d = Except.ok [""] ∧
      (processDomain env d).whoisCalls = [""]) := by
  have h1 := getIPs_eq env d out h
  refine ⟨h1, goSplitLines_length_pos _, ?_⟩
  rintro rfl
  have h2 : getIPsByDig env d = Except.ok [""] := h1.trans rfl
  refine ⟨h2, ?_⟩
  rw [processDomain_cons env d "" [] h2]
  exact processIP_whoisCalls env ""

/-- Claim C9 witness: the empty dig output yields `[""]` and a whois call on
the empty string. -/
theorem claim9_witness :
    getIPsByDig envNoWhois "example.com"
      = Except.ok (goSplitLines (goTrimSpace "")) ∧
    1 ≤ (goSplitLines (goTrimSpace "")).length ∧
    ("" = "" → getIPsByDig envNoWhois "example.com" = Except.ok [""] ∧
      (processDomain envNoWhois "example.com").whoisCalls = [""]) :=
  claim9_dig_never_empty envNoWhois "example.com" "" rfl

/-- Claim C10: a domain whose pipeline pass did not complete all three
stages appends nothing: its iteration's record list is empty and the
accumulator after the iteration equals the accumulator before it. -/
theorem claim10_frame (env : Env) (d : String) (h : ¬ domainCompleted env d) :
    (processDomain env d).newRecords = [] ∧
    ∀ acc, mainLoop env acc [d] = acc := by
  have hrec : (processDomain env d).newRecords = [] := by
    unfold processDomain
    cases hdig : getIPsByDig env d with
    | error e => simp
    | ok ips =>
      cases ips with
      | nil => simp
      | cons ip rest =>
        unfold processIP
        cases hw : getASNumberByWhois env ip with
        | error e => simp [hw]
        | ok asn =>
          simp only [hw]
          cases hf : getIPPrefixes env asn with
          | error e => simp [hf]
          | ok ps => exact absurd ⟨ip, rest, asn, ps, hdig, hw, hf⟩ h
  refine ⟨hrec, fun acc => ?_⟩
  show mainLoop env (goAppendList acc (processDomain env d).newRecords) [] = acc
  rw [hrec]
  rfl

/-- Claim C10 witness: with whois failing, a sample accumulator is untouched
by the domain's iteration. -/
theorem claim10_witness :
    (processDomain envNoWhois "example.com").newRecords = [] ∧
    mainLoop envNoWhois (some [PrefixForFile.mk "10.0.0.0/8" ""]) ["example.com"]
      = some [PrefixForFile.mk "10.0.0.0/8" ""] := by
  have h := claim10_frame envNoWhois "example.com" (by
    rintro ⟨ip, rest, asn, ps, hdig, hw, hf⟩
    simp [getASNumberByWhois, envNoWhois] at hw)
  exact ⟨h.1, h.2 _⟩

end AdressToIpStend
